import Mathlib

/-!
# Verification of the `ldap3` protocol core against its specification

A shallow embedding, in Lean 4, of the parts of the `ldap3` LDAP client
library (and its `lber` BER codec) that the specification's claims are
about, together with theorems settling each claim.

Conventions of the embedding:
* Rust `u8` bytes are modelled as `Nat` (every byte produced by the
  embedding is `< 256` by construction);
* Rust `i64` / `i32` values are modelled as `Int`, with wrap-around made
  explicit (`% 2 ^ 64`) where the source relies on it;
* Rust `String` / `&str` values are modelled by their UTF-8 byte
  sequences (`List Nat`), so `String::into_bytes` / `str::as_bytes` are
  the identity and `String::from_utf8` is a UTF-8 validity guard that
  returns the same bytes;
* fallible or panicking Rust code returns `Option`.
-/

namespace Ldap3

/-- A Rust `String`/`&str`, modelled as its sequence of UTF-8 bytes. -/
abbrev RStr := List Nat

/-- UTF-8 encoding of a single character (code point → byte list). -/
def charUtf8 (c : Char) : List Nat :=
  let n := c.toNat
  if n < 0x80 then [n]
  else if n < 0x800 then [0xC0 + n / 64, 0x80 + n % 64]
  else if n < 0x10000 then
    [0xE0 + n / 4096, 0x80 + n / 64 % 64, 0x80 + n % 64]
  else
    [0xF0 + n / 262144, 0x80 + n / 4096 % 64, 0x80 + n / 64 % 64,
     0x80 + n % 64]

/-- UTF-8 bytes of a Lean string literal, used to transcribe Rust string
literals into the byte model. -/
def strBytes (s : String) : RStr :=
  s.data.foldr (fun c acc => charUtf8 c ++ acc) []

/-! ## `lber/src/common.rs` -/

/-- `lber::common::TagClass`: possible classes for a BER tag. -/
inductive TagClass where
  | Universal
  | Application
  | Context
  | Private
deriving DecidableEq, Repr

/-! ## `lber/src/structure.rs` -/

mutual

/-- `lber::structure::StructureTag`: an ASN.1 structure prepared for
serialization. -/
inductive StructureTag where
  | mk (class_ : TagClass) (id : Nat) (payload : PL)

/-- `lber::structure::PL`: a tagged value payload, either primitive
(bytes) or constructed (nested tags). -/
inductive PL where
  | P (bytes : List Nat)
  | C (tags : List StructureTag)

end

namespace StructureTag

/-- Field accessor for the tag class. -/
def class_ : StructureTag → TagClass
  | .mk c _ _ => c

/-- Field accessor for the tag number. -/
def id : StructureTag → Nat
  | .mk _ i _ => i

/-- Field accessor for the payload. -/
def payload : StructureTag → PL
  | .mk _ _ p => p

/-- `StructureTag::expect_constructed`. -/
def expect_constructed (t : StructureTag) : Option (List StructureTag) :=
  match t.payload with
  | .P _ => none
  | .C i => some i

/-- `StructureTag::expect_primitive`. -/
def expect_primitive (t : StructureTag) : Option (List Nat) :=
  match t.payload with
  | .P i => some i
  | .C _ => none

end StructureTag

/-! ## `lber/src/structures/integer.rs` — the BER integer payload encoder -/

/-- Big-endian base-256 digits of `n`, `w` octets wide (the embedding of
`i64::to_be_bytes` applied to the low `8 * w` bits of a value). -/
def natToBE : Nat → Nat → List Nat
  | 0, _ => []
  | w + 1, n => (n / 256 ^ w % 256) :: natToBE w n

/-- The stripping loop of `i_e_into_structure`: while the first octet
equals `skippable` and the next octet's high bit equals `skippable`'s
high bit, remove the first octet. -/
def stripLeading (skippable : Nat) : List Nat → List Nat
  | a :: b :: rest =>
    if a = skippable ∧ b &&& 0x80 = skippable &&& 0x80 then
      stripLeading skippable (b :: rest)
    else
      a :: b :: rest
  | l => l

/-- The BER integer payload produced by `i_e_into_structure` for a 64-bit
signed `inner` value: the two's-complement big-endian octets of `inner`
(`to_be_bytes`), with leading `0x00` octets (for nonnegative values) or
leading `0xFF` octets (for negative values) stripped while the following
octet's high bit matches. -/
def i_e_payload (inner : Int) : List Nat :=
  let out := natToBE 8 (inner % 2 ^ 64).toNat
  let skippable := if 0 ≤ inner then 0 else 0xff
  stripLeading skippable out

/-- `i_e_into_structure`, shared by the `ASNTag` impls of `Integer` and
`Enumerated`. -/
def i_e_into_structure (id : Nat) (class_ : TagClass) (inner : Int) :
    StructureTag :=
  .mk class_ id (.P (i_e_payload inner))

/-- `lber::structures::Integer`. -/
structure Integer where
  id : Nat
  class_ : TagClass
  inner : Int
deriving DecidableEq, Repr

/-- `lber::structures::Enumerated`: an integer with a different tag. -/
structure Enumerated where
  id : Nat
  class_ : TagClass
  inner : Int
deriving DecidableEq, Repr

/-- `impl ASNTag for Integer`. -/
def Integer.into_structure (i : Integer) : StructureTag :=
  i_e_into_structure i.id i.class_ i.inner

/-- `impl ASNTag for Enumerated`. -/
def Enumerated.into_structure (e : Enumerated) : StructureTag :=
  i_e_into_structure e.id e.class_ e.inner

/-- Modelled from the spec: the universal tag number of ASN.1 INTEGER
(`universal::Types::Integer`, whose defining file `lber/src/universal.rs`
is not part of the sources; BER assigns INTEGER the universal tag 2). -/
def typesInteger : Nat := 2

/-- Modelled from the spec: the universal tag number of ASN.1 ENUMERATED
(`universal::Types::Enumerated`; BER assigns ENUMERATED the universal
tag 10). -/
def typesEnumerated : Nat := 10

/-- `impl Default for Integer`. -/
def Integer.default : Integer :=
  { id := typesInteger, class_ := .Universal, inner := 0 }

/-- `impl Default for Enumerated`. -/
def Enumerated.default : Enumerated :=
  { id := typesEnumerated, class_ := .Universal, inner := 0 }

/-! ### Big-endian two's-complement reading of a payload

`beVal` reads a byte list as an unsigned big-endian number; `beDecode`
reads it as a signed (two's-complement) number.  These are the reference
interpretations against which minimality and value preservation of the
encoder are stated. -/

/-- Unsigned big-endian value of a byte list. -/
def beVal (bs : List Nat) : Nat :=
  bs.foldl (fun a b => a * 256 + b) 0

/-- Signed (two's-complement) big-endian value of a byte list. -/
def beDecode : List Nat → Int
  | [] => 0
  | b :: rest =>
    if 128 ≤ b then (beVal (b :: rest) : Int) - (256 : Int) ^ (rest.length + 1)
    else (beVal (b :: rest) : Int)

/-! ### Arithmetic lemmas about `beVal`, `natToBE` and `stripLeading` -/

theorem beVal_go (a : Nat) (bs : List Nat) :
    bs.foldl (fun x y => x * 256 + y) a =
      a * 256 ^ bs.length + bs.foldl (fun x y => x * 256 + y) 0 := by
  induction bs generalizing a with
  | nil => simp
  | cons b t ih =>
    simp only [List.foldl_cons, List.length_cons]
    rw [ih (a * 256 + b), ih (0 * 256 + b)]
    ring

theorem beVal_cons (b : Nat) (bs : List Nat) :
    beVal (b :: bs) = b * 256 ^ bs.length + beVal bs := by
  simp only [beVal, List.foldl_cons]
  rw [beVal_go (0 * 256 + b) bs]
  ring_nf

theorem natToBE_length (w n : Nat) : (natToBE w n).length = w := by
  induction w generalizing n with
  | zero => rfl
  | succ w ih => simp [natToBE, ih]

theorem natToBE_mem_lt (w n : Nat) : ∀ b ∈ natToBE w n, b < 256 := by
  induction w generalizing n with
  | zero => intro b hb; simp [natToBE] at hb
  | succ w ih =>
    intro b hb
    simp only [natToBE, List.mem_cons] at hb
    rcases hb with h | h
    · subst h
      exact Nat.mod_lt _ (by norm_num)
    · exact ih n b h

theorem natToBE_digit_lt (w n : Nat) : n / 256 ^ w % 256 < 256 :=
  Nat.mod_lt _ (by norm_num)

theorem beVal_natToBE (w n : Nat) : beVal (natToBE w n) = n % 256 ^ w := by
  induction w generalizing n with
  | zero => simp [natToBE, beVal, Nat.mod_one]
  | succ w ih =>
    rw [natToBE, beVal_cons, natToBE_length, ih]
    have h : 256 ^ (w + 1) = 256 ^ w * 256 := by ring
    rw [h, Nat.mod_mul]
    ring

theorem beVal_lt (bs : List Nat) (h : ∀ b ∈ bs, b < 256) :
    beVal bs < 256 ^ bs.length := by
  induction bs with
  | nil => simp [beVal]
  | cons b t ih =>
    rw [beVal_cons]
    have hb : b < 256 := h b (by simp)
    have ht := ih (fun x hx => h x (by simp [hx]))
    have : b * 256 ^ t.length ≤ 255 * 256 ^ t.length :=
      Nat.mul_le_mul_right _ (by omega)
    calc b * 256 ^ t.length + beVal t
        < b * 256 ^ t.length + 256 ^ t.length := by omega
      _ ≤ 255 * 256 ^ t.length + 256 ^ t.length := by omega
      _ = 256 ^ (t.length + 1) := by ring

/-- For a byte, masking with `0x80` tests the high bit. -/
theorem land_128_eq (b : Nat) (hb : b < 256) :
    b &&& 128 = if 128 ≤ b then 128 else 0 := by
  have key := Nat.and_two_pow b 7
  rw [Nat.testBit_to_div_mod] at key
  norm_num at key
  rw [key]
  rcases Nat.lt_or_ge b 128 with hlt | hge
  · have h1 : b / 128 = 0 := Nat.div_eq_of_lt hlt
    rw [if_neg (by omega)]
    simp [h1]
  · have h1 : b / 128 = 1 := by omega
    rw [if_pos hge]
    simp [h1]

/-- Removing a strippable leading `0x00` octet preserves the signed
value. -/
theorem beDecode_cons_zero (b : Nat) (r : List Nat) (hb : b < 128) :
    beDecode (0 :: b :: r) = beDecode (b :: r) := by
  simp only [beDecode]
  rw [if_neg (show ¬(128 ≤ 0) by omega), if_neg (show ¬(128 ≤ b) by omega)]
  rw [beVal_cons 0 (b :: r)]
  simp

/-- Removing a strippable leading `0xFF` octet preserves the signed
value. -/
theorem beDecode_cons_ff (b : Nat) (r : List Nat) (hb : 128 ≤ b) :
    beDecode (255 :: b :: r) = beDecode (b :: r) := by
  simp only [beDecode]
  rw [if_pos (show (128 : Nat) ≤ 255 by omega), if_pos hb]
  rw [beVal_cons 255 (b :: r)]
  push_cast
  simp only [List.length_cons]
  ring

/-- Stripping skippable leading octets does not change the signed value
of the payload. -/
theorem beDecode_stripLeading (s : Nat) (hs : s = 0 ∨ s = 255) :
    ∀ bs : List Nat, (∀ b ∈ bs, b < 256) →
      beDecode (stripLeading s bs) = beDecode bs := by
  intro bs
  induction bs with
  | nil => intro _; rfl
  | cons a t ih =>
    cases t with
    | nil => intro _; rfl
    | cons b r =>
      intro h
      by_cases hc : a = s ∧ b &&& 128 = s &&& 128
      · have hstep : stripLeading s (a :: b :: r) = stripLeading s (b :: r) := by
          simp only [stripLeading, if_pos hc]
        have hb : b < 256 := h b (by simp)
        have hmem : ∀ x ∈ b :: r, x < 256 := by
          intro x hx
          exact h x (by simp at hx ⊢; tauto)
        rw [hstep, ih hmem]
        rcases hs with hs0 | hs255
        · have h2 : b &&& 128 = 0 := by
            have h2' := hc.2
            rw [hs0] at h2'
            simpa using h2'
          have hblt : b < 128 := by
            rw [land_128_eq b hb] at h2
            by_cases hb128 : 128 ≤ b
            · rw [if_pos hb128] at h2; omega
            · omega
          rw [hc.1, hs0]
          exact (beDecode_cons_zero b r hblt).symm
        · have h2 : b &&& 128 = 128 := by
            have h2' := hc.2
            rw [hs255] at h2'
            simpa using h2'
          have hbge : 128 ≤ b := by
            rw [land_128_eq b hb] at h2
            by_cases hb128 : 128 ≤ b
            · exact hb128
            · rw [if_neg hb128] at h2; omega
          rw [hc.1, hs255]
          exact (beDecode_cons_ff b r hbge).symm
      · simp only [stripLeading, if_neg hc]

/-- The stripping loop returns a suffix of its input. -/
theorem stripLeading_suffix (s : Nat) :
    ∀ bs : List Nat, stripLeading s bs <:+ bs := by
  intro bs
  induction bs with
  | nil => exact List.suffix_refl _
  | cons a t ih =>
    cases t with
    | nil => exact List.suffix_refl _
    | cons b r =>
      by_cases hc : a = s ∧ b &&& 128 = s &&& 128
      · simp only [stripLeading, if_pos hc]
        exact ih.trans (List.suffix_cons a (b :: r))
      · simp only [stripLeading, if_neg hc]
        exact List.suffix_refl _

/-- The stripping loop never empties a nonempty payload. -/
theorem stripLeading_ne_nil (s : Nat) :
    ∀ bs : List Nat, bs ≠ [] → stripLeading s bs ≠ [] := by
  intro bs
  induction bs with
  | nil => intro h; exact absurd rfl h
  | cons a t ih =>
    intro _
    cases t with
    | nil => simp [stripLeading]
    | cons b r =>
      by_cases hc : a = s ∧ b &&& 128 = s &&& 128
      · simp only [stripLeading, if_pos hc]
        exact ih (by simp)
      · simp only [stripLeading, if_neg hc]
        simp

/-- When the stripping loop stops with at least two octets left, the stop
condition holds: the head octet is not strippable. -/
theorem stripLeading_stop (s : Nat) :
    ∀ bs b0 b1 rest, stripLeading s bs = b0 :: b1 :: rest →
      ¬(b0 = s ∧ b1 &&& 128 = s &&& 128) := by
  intro bs
  induction bs with
  | nil => intro b0 b1 rest h; simp [stripLeading] at h
  | cons a t ih =>
    intro b0 b1 rest h
    cases t with
    | nil => simp [stripLeading] at h
    | cons b r =>
      by_cases hc : a = s ∧ b &&& 128 = s &&& 128
      · rw [show stripLeading s (a :: b :: r) = stripLeading s (b :: r) by
          simp only [stripLeading, if_pos hc]] at h
        exact ih b0 b1 rest h
      · rw [show stripLeading s (a :: b :: r) = a :: b :: r by
          simp only [stripLeading, if_neg hc]] at h
        obtain ⟨rfl, rfl, rfl⟩ : a = b0 ∧ b = b1 ∧ r = rest := by
          simpa using h
        exact hc

/-- Signed reading of the full 8-octet two's-complement image of a 64-bit
integer recovers the integer. -/
theorem beDecode_natToBE_eight (i : Int) (h1 : -(2 ^ 63) ≤ i)
    (h2 : i < 2 ^ 63) :
    beDecode (natToBE 8 ((i % 2 ^ 64).toNat)) = i := by
  have hpos : (0 : Int) < 2 ^ 64 := by norm_num
  have hm0 : 0 ≤ i % 2 ^ 64 := Int.emod_nonneg i (by norm_num)
  have hmlt : i % 2 ^ 64 < 2 ^ 64 := Int.emod_lt_of_pos i hpos
  set m : Nat := (i % 2 ^ 64).toNat with hm
  have hmi : (m : Int) = i % 2 ^ 64 := Int.toNat_of_nonneg hm0
  have hm64 : m < 2 ^ 64 := by
    have := hmlt
    omega
  have hval : beVal (natToBE 8 m) = m := by
    rw [beVal_natToBE]
    exact Nat.mod_eq_of_lt (by norm_num at hm64 ⊢; omega)
  have hhead : natToBE 8 m = (m / 256 ^ 7 % 256) :: natToBE 7 m := rfl
  have hlen : (natToBE 7 m).length = 7 := natToBE_length 7 m
  rcases le_or_lt 0 i with hge | hlt
  · -- nonnegative: the stored value is `i` itself and the high bit is 0
    have hieq : i % 2 ^ 64 = i := Int.emod_eq_of_lt hge (by
      have : (2 : Int) ^ 63 < 2 ^ 64 := by norm_num
      omega)
    have hmival : (m : Int) = i := by rw [hmi, hieq]
    have hmsmall : m < 2 ^ 63 := by
      have : (m : Int) < 2 ^ 63 := by rw [hmival]; exact h2
      norm_num at this ⊢
      omega
    have hhead_lt : m / 256 ^ 7 % 256 < 128 := by
      have hq : m / 256 ^ 7 < 128 := by
        apply Nat.div_lt_of_lt_mul
        norm_num at hmsmall ⊢
        omega
      omega
    rw [hhead]
    simp only [beDecode]
    rw [if_neg (by omega)]
    rw [← hhead, hval, hmival]
  · -- negative: the stored value is `i + 2⁶⁴` and the high bit is 1
    have hieq : i % 2 ^ 64 = i + 2 ^ 64 := by
      have hlow : -(2 ^ 64) ≤ i := by
        have : -(2 : Int) ^ 64 ≤ -(2 ^ 63) := by norm_num
        omega
      omega
    have hmival : (m : Int) = i + 2 ^ 64 := by rw [hmi, hieq]
    have hmbig : 2 ^ 63 ≤ m := by
      have : (2 : Int) ^ 63 ≤ (m : Int) := by
        rw [hmival]
        have : -(2 : Int) ^ 63 ≤ i := h1
        norm_num at this ⊢
        omega
      norm_num at this ⊢
      omega
    have hhead_ge : 128 ≤ m / 256 ^ 7 % 256 := by
      have hq1 : 128 ≤ m / 256 ^ 7 := by
        apply Nat.le_div_iff_mul_le (by norm_num) |>.mpr
        norm_num at hmbig ⊢
        omega
      have hq2 : m / 256 ^ 7 < 256 := by
        apply Nat.div_lt_of_lt_mul
        norm_num at hm64 ⊢
        omega
      omega
    rw [hhead]
    simp only [beDecode]
    rw [if_pos (by omega)]
    rw [hlen]
    rw [← hhead, hval, hmival]
    push_cast
    ring

/-- The payload of the encoder is the stripping loop applied to the
8-octet image, with the skippable octet chosen by sign. -/
theorem i_e_payload_eq (i : Int) :
    i_e_payload i =
      stripLeading (if 0 ≤ i then 0 else 255)
        (natToBE 8 ((i % 2 ^ 64).toNat)) := rfl

/-- C1: for every 64-bit signed integer `i`, the BER integer payload
produced by `i_e_into_structure` is the two's-complement big-endian
representation of `i` in the minimum number of octets preserving the
sign: the payload is nonempty, its signed big-endian reading equals `i`,
a leading `0x00` octet is followed only by an octet with high bit 1, a
leading `0xFF` octet only by an octet with high bit 0; in particular
`127 ↦ 7F`, `128 ↦ 00 80`, `-1 ↦ FF`, `-129 ↦ FF 7F`. -/
theorem integer_payload_minimal_twos_complement (i : Int)
    (h1 : -(2 ^ 63) ≤ i) (h2 : i < 2 ^ 63) :
    i_e_payload i ≠ [] ∧
    beDecode (i_e_payload i) = i ∧
    (∀ b0 b1 rest, i_e_payload i = b0 :: b1 :: rest →
      (b0 = 0 → 128 ≤ b1) ∧ (b0 = 255 → b1 < 128)) ∧
    i_e_payload 127 = [0x7F] ∧
    i_e_payload 128 = [0x00, 0x80] ∧
    i_e_payload (-1) = [0xFF] ∧
    i_e_payload (-129) = [0xFF, 0x7F] := by
  set s : Nat := if 0 ≤ i then 0 else 255 with hsdef
  have hs : s = 0 ∨ s = 255 := by
    rw [hsdef]
    split
    · exact Or.inl rfl
    · exact Or.inr rfl
  set full : List Nat := natToBE 8 ((i % 2 ^ 64).toNat) with hfull
  have hmem : ∀ b ∈ full, b < 256 := natToBE_mem_lt 8 _
  have hpe : i_e_payload i = stripLeading s full := i_e_payload_eq i
  have hdec : beDecode (i_e_payload i) = i := by
    rw [hpe, beDecode_stripLeading s hs full hmem]
    exact beDecode_natToBE_eight i h1 h2
  have hsub : i_e_payload i ⊆ full := by
    rw [hpe]
    exact (stripLeading_suffix s full).subset
  refine ⟨?_, hdec, ?_, by decide, by decide, by decide, by decide⟩
  · rw [hpe]
    apply stripLeading_ne_nil
    rw [hfull]
    simp [natToBE]
  · intro b0 b1 rest hsplit
    have hstop := stripLeading_stop s full b0 b1 rest (hpe ▸ hsplit)
    have hb0 : b0 < 256 := hmem b0 (hsub (by rw [hsplit]; simp))
    have hb1 : b1 < 256 := hmem b1 (hsub (by rw [hsplit]; simp))
    have hallmem : ∀ b ∈ b0 :: b1 :: rest, b < 256 := by
      intro b hb
      exact hmem b (hsub (by rw [hsplit]; exact hb))
    have hdec' : beDecode (b0 :: b1 :: rest) = i := by rw [← hsplit]; exact hdec
    rcases le_or_lt 0 i with hge | hlt
    · have hs0 : s = 0 := by rw [hsdef, if_pos hge]
      constructor
      · intro hb00
        by_contra hb1lt
        apply hstop
        refine ⟨by rw [hb00, hs0], ?_⟩
        rw [hs0]
        rw [land_128_eq b1 hb1, if_neg (by omega)]
        decide
      · intro hb0ff
        exfalso
        have hneg : beDecode (b0 :: b1 :: rest) < 0 := by
          simp only [beDecode]
          rw [if_pos (by omega : 128 ≤ b0)]
          have := beVal_lt (b0 :: b1 :: rest) hallmem
          have hcast : (beVal (b0 :: b1 :: rest) : Int) <
              (256 : Int) ^ (b0 :: b1 :: rest).length := by
            exact_mod_cast this
          simp only [List.length_cons] at hcast ⊢
          omega
        omega
    · have hs255 : s = 255 := by rw [hsdef, if_neg (by omega)]
      constructor
      · intro hb00
        exfalso
        have hnneg : 0 ≤ beDecode (b0 :: b1 :: rest) := by
          simp only [beDecode]
          rw [if_neg (by omega : ¬(128 ≤ b0))]
          positivity
        omega
      · intro hb0ff
        by_contra hb1ge
        apply hstop
        refine ⟨by rw [hb0ff, hs255], ?_⟩
        rw [hs255]
        rw [land_128_eq b1 hb1, if_pos (by omega)]
        decide

/-- Closed witness for the C1 theorem at `i = 128`. -/
theorem integer_payload_minimal_twos_complement_witness :
    -(2 ^ 63) ≤ (128 : Int) ∧ (128 : Int) < 2 ^ 63 ∧
    beDecode (i_e_payload 128) = 128 ∧ i_e_payload 128 = [0x00, 0x80] :=
  ⟨by norm_num, by norm_num,
   (integer_payload_minimal_twos_complement 128 (by norm_num)
     (by norm_num)).2.1,
   (integer_payload_minimal_twos_complement 128 (by norm_num)
     (by norm_num)).2.2.2.2.1⟩

/-- C9: encoding an `Integer` and an `Enumerated` with the same id, class
and inner value produces identical structure tags; the two types differ
only in their default tag numbers (2 for `Integer`, 10 for
`Enumerated`), their default class and inner value being equal. -/
theorem integer_enumerated_same_encoding (id : Nat) (c : TagClass)
    (inner : Int) :
    Integer.into_structure ⟨id, c, inner⟩ =
      Enumerated.into_structure ⟨id, c, inner⟩ ∧
    Integer.default.id = 2 ∧
    Enumerated.default.id = 10 ∧
    Integer.default.class_ = Enumerated.default.class_ ∧
    Integer.default.inner = Enumerated.default.inner :=
  ⟨rfl, rfl, rfl, rfl, rfl⟩

/-! ## `src/ldap.rs` — per-call settings (search options, controls, timeout)

`SearchOptions` and `RawControl` are declared in `search.rs` and
`controls.rs` of the crate, which are not among the sources; they are
modelled from the spec below.  The slot-manipulating functions themselves
(`next_search_options`, `next_req_controls`, `next_timeout`,
`with_search_options`, `with_controls`, `with_timeout`) are translated
from `src/ldap.rs`; interior mutability (`Rc<RefCell<…>>`) is modelled by
explicit state passing on the record of the three slots. -/

/-- `search::DerefAliases` with its discriminants
`Never = 0, InSearch = 1, FindingBaseObject = 2, Always = 3`. -/
inductive DerefAliases where
  | Never
  | InSearch
  | FindingBaseObject
  | Always
deriving DecidableEq, Repr

/-- Modelled from the spec: search options — dereference-aliases policy,
size limit (0 = unlimited), time limit seconds (0 = unlimited),
types-only boolean (§3 Search options).  The defining `search.rs` of the
claimed revision is not among the sources. -/
structure SearchOptions where
  deref : DerefAliases
  sizelimit : Int
  timelimit : Int
  typesonly : Bool
deriving DecidableEq, Repr

/-- Modelled from the spec: a control is a triple of OID string,
criticality boolean and optional raw value (§3 Control); field names
follow the uses of `RawControl` in `src/controls_impl/txn.rs`. -/
structure RawControl where
  ctype : RStr
  crit : Bool
  val : Option RStr
deriving DecidableEq, Repr

/-- A Rust `std::time::Duration`, opaque for the claims; modelled as its
total length in nanoseconds. -/
abbrev Duration := Nat

/-- The three per-call slots held by `Ldap` through `Rc<RefCell<…>>`:
`next_search_options`, `next_req_controls`, `next_timeout`. -/
structure LdapSlots where
  next_search_options : Option SearchOptions
  next_req_controls : Option (List RawControl)
  next_timeout : Option Duration
deriving DecidableEq, Repr

/-- `ldap::next_search_options`: `take()` the search-options slot,
returning its value and the updated state. -/
def next_search_options (l : LdapSlots) :
    Option SearchOptions × LdapSlots :=
  (l.next_search_options, { l with next_search_options := none })

/-- `ldap::next_req_controls`: the source first `take()`s (and discards)
the search-options slot, then `take()`s the request-controls slot. -/
def next_req_controls (l : LdapSlots) :
    Option (List RawControl) × LdapSlots :=
  let l1 : LdapSlots := { l with next_search_options := none }
  (l1.next_req_controls, { l1 with next_req_controls := none })

/-- `ldap::next_timeout`: `take()` the timeout slot. -/
def next_timeout (l : LdapSlots) : Option Duration × LdapSlots :=
  (l.next_timeout, { l with next_timeout := none })

/-- `Ldap::with_search_options`: `mem::replace` the slot with
`Some(opts)`. -/
def with_search_options (opts : SearchOptions) (l : LdapSlots) :
    LdapSlots :=
  { l with next_search_options := some opts }

/-- `Ldap::with_controls`: `mem::replace` the slot with the given
controls. -/
def with_controls (ctrls : List RawControl) (l : LdapSlots) : LdapSlots :=
  { l with next_req_controls := some ctrls }

/-- `Ldap::with_timeout`: `mem::replace` the slot with the given
duration. -/
def with_timeout (d : Duration) (l : LdapSlots) : LdapSlots :=
  { l with next_timeout := some d }

/-- C2 counterexample: fetching the pending request controls does NOT
leave the search-options slot unchanged — on a state holding pending
search options, `next_req_controls` clears them. -/
theorem next_req_controls_clears_search_options_cex :
    (next_req_controls
        ⟨some ⟨.Never, 0, 0, false⟩, some [], some 0⟩).2.next_search_options
      ≠ (⟨some ⟨.Never, 0, 0, false⟩, some [], some 0⟩ :
          LdapSlots).next_search_options := by
  decide

/-- C2 (amended): fetching the pending request controls returns and
clears the request-controls slot and also clears the pending
search-options slot, discarding its value; only the timeout slot is left
unchanged. -/
theorem next_req_controls_effect (l : LdapSlots) :
    (next_req_controls l).1 = l.next_req_controls ∧
    (next_req_controls l).2.next_req_controls = none ∧
    (next_req_controls l).2.next_search_options = none ∧
    (next_req_controls l).2.next_timeout = l.next_timeout :=
  ⟨rfl, rfl, rfl, rfl⟩

/-- C3: each per-call setting is consumed exactly once — fetching a slot
returns its value and empties it, so an immediate second fetch returns
`none`; configuring a slot that still holds an unconsumed value silently
overwrites the previous value. -/
theorem per_call_settings_consumed_once (l : LdapSlots)
    (opts : SearchOptions) (ctrls : List RawControl) (d : Duration) :
    (next_search_options l).1 = l.next_search_options ∧
    (next_search_options l).2.next_search_options = none ∧
    (next_search_options ((next_search_options l).2)).1 = none ∧
    (next_req_controls l).1 = l.next_req_controls ∧
    (next_req_controls l).2.next_req_controls = none ∧
    (next_req_controls ((next_req_controls l).2)).1 = none ∧
    (next_timeout l).1 = l.next_timeout ∧
    (next_timeout l).2.next_timeout = none ∧
    (next_timeout ((next_timeout l).2)).1 = none ∧
    (with_search_options opts l).next_search_options = some opts ∧
    (with_controls ctrls l).next_req_controls = some ctrls ∧
    (with_timeout d l).next_timeout = some d :=
  ⟨rfl, rfl, rfl, rfl, rfl, rfl, rfl, rfl, rfl, rfl, rfl, rfl⟩

/-! ## `lber::structures::Tag` and the remaining ASN.1 value types

`lber/src/structures/mod.rs` (with `OctetString`, `Boolean`, `Null`,
`Sequence` and the `Tag` enum) is not among the sources; the types are
modelled from their uses in `src/src/*.rs` and the spec's data model
(§3, §4.1–4.2).  Universal default tag numbers follow BER. -/

/-- Modelled from the spec: `lber::structures::OctetString`
(id, class, byte-string inner value). -/
structure OctetString where
  id : Nat
  class_ : TagClass
  inner : RStr
deriving DecidableEq, Repr

/-- Modelled from the spec: `lber::structures::Boolean`. -/
structure Boolean where
  id : Nat
  class_ : TagClass
  inner : Bool
deriving DecidableEq, Repr

/-- Modelled from the spec: BER universal tag of OCTET STRING, the
default id of `OctetString`. -/
def OctetString.default : OctetString := ⟨4, .Universal, []⟩

/-- Modelled from the spec: BER universal tag of BOOLEAN, the default id
of `Boolean`. -/
def Boolean.default : Boolean := ⟨1, .Universal, false⟩

/-- Modelled from the spec: BER universal tag of SEQUENCE, the default
id of `Sequence`. -/
def sequenceDefaultId : Nat := 16

/-- Modelled from the spec: BER universal tag of NULL, the default id of
`Null`. -/
def nullDefaultId : Nat := 5

/-- Modelled from the spec: `lber::structures::Tag`, the sum of the
typed ASN.1 values (the variants used by the sources).  `Sequence` and
`Null` are inlined as constructor fields because their struct
definitions are likewise not among the sources. -/
inductive Tag where
  | Integer (i : Integer)
  | Enumerated (e : Enumerated)
  | OctetString (o : OctetString)
  | Boolean (b : Boolean)
  | Null (id : Nat) (class_ : TagClass)
  | Sequence (id : Nat) (class_ : TagClass) (inner : List Tag)
  | StructureTag (t : StructureTag)

/-! ## `src/src/controls_impl/txn.rs` — Transaction Specification -/

/-- `TXN_REQUEST_OID`, the OID string `"1.3.6.1.1.21.2"` (as UTF-8
bytes). -/
def TXN_REQUEST_OID : RStr := strBytes "1.3.6.1.1.21.2"

/-- `TxnSpec`: the transaction-specification control, holding the
transaction id (`&str`, modelled as its UTF-8 bytes). -/
structure TxnSpec where
  txn_id : RStr
deriving DecidableEq, Repr

/-- `impl From<TxnSpec> for RawControl`. -/
def TxnSpec.intoRawControl (txn : TxnSpec) : RawControl :=
  { ctype := TXN_REQUEST_OID, crit := true, val := some txn.txn_id }

/-- C10: converting a `TxnSpec` into a raw control yields OID exactly
`1.3.6.1.1.21.2` (ASCII bytes `31 2E 33 2E 36 2E 31 2E 31 2E 32 31 2E
32`), criticality `true`, and a present value equal to the UTF-8 bytes
of the transaction id. -/
theorem txn_spec_raw_control (txn : TxnSpec) :
    (txn.intoRawControl).ctype = TXN_REQUEST_OID ∧
    TXN_REQUEST_OID =
      [49, 46, 51, 46, 54, 46, 49, 46, 49, 46, 50, 49, 46, 50] ∧
    (txn.intoRawControl).crit = true ∧
    (txn.intoRawControl).val = some txn.txn_id :=
  ⟨rfl, by decide, rfl, rfl⟩

/-! ## `src/src/ldap.rs` — `Ldap::call` (the `Service` impl)

The operation dispatch with a per-operation deadline.  The futures race
(`select2` between the inner call and the timer) is modelled by an
explicit `CallOutcome` input saying which side completed first; interior
mutability of the shared `ProtoBundle` is modelled by state passing.
A panic (`.expect("id from id_map")`) is modelled as `none`. -/

/-- `ldap::LdapOp` (the `mpsc` sender of the `Multi` variant is opaque
to the claims and omitted). -/
inductive LdapOp where
  | Single (t : Tag) (c : Option (List RawControl))
  | Multi (t : Tag) (c : Option (List RawControl))
  | Solo (t : Tag) (c : Option (List RawControl))

/-- Modelled from the spec: a parsed response control (a control in raw
form when the OID is unknown, §3 Control); `controls.rs` is not among
the sources and the claims never inspect parsed controls. -/
abbrev Control := RawControl

/-- `ldap::LdapResponse`: the response tag together with its response
controls. -/
structure LdapResponse where
  tag : Tag
  controls : List Control

/-- Modelled from the spec: the fields of `protocol::ProtoBundle`
(`protocol.rs` is not among the sources) that `Ldap::call` uses —
`id_map`, mapping a MessageID to the internal multiplexer id, and
`solo_ops`, the queue that doubles as the spec's "pending-abandon" set
(§4.4 Timeout policy). -/
structure ProtoBundle where
  id_map : List (Int × Int)
  solo_ops : List Int

/-- Which side of the `select2` race in `Ldap::call` completed first. -/
inductive CallOutcome where
  | response (t : Tag) (c : List Control)
  | timedOut
  | failed

/-- The error of a failed call: the spec's `Timeout` error kind
(`io::Error::new(Other, "timeout")` in the source) or a passed-through
inner error. -/
inductive CallError where
  | timeout
  | inner
deriving DecidableEq, Repr

/-- The observable outcome of one `Ldap::call`: the delivered result,
the updated shared bundle, and whether the call emitted an
AbandonRequest on the wire (the source's `call` never does). -/
structure CallResult where
  result : Except CallError LdapResponse
  bundle : ProtoBundle
  abandonRequestSent : Bool

/-- `Ldap::call` (the `Service::call` impl in `src/ldap.rs`): consumes
the pending timeout slot; without a deadline it forwards the inner
result; with a deadline it races the inner call against the timer, and
on expiry either returns an `Enumerated` sentinel carrying the internal
id of the search (streaming ops), or records the MessageID in
`solo_ops` and fails with a timeout error (single ops; solo ops fail
without being recorded). -/
def ldapCall (slots : LdapSlots) (bundle : ProtoBundle) (req : LdapOp)
    (assignedMsgid : Int) (outcome : CallOutcome) :
    Option (CallResult × LdapSlots) :=
  let fetched := next_timeout slots
  let slots1 := fetched.2
  match fetched.1 with
  | some _ =>
    let is_search := match req with | .Multi _ _ => true | _ => false
    let is_solo := match req with | .Solo _ _ => true | _ => false
    match outcome with
    | .response t c =>
      some ({ result := .ok ⟨t, c⟩, bundle := bundle,
              abandonRequestSent := false }, slots1)
    | .timedOut =>
      if is_search then
        match bundle.id_map.lookup assignedMsgid with
        | some v =>
          some ({ result :=
                    .ok ⟨.Enumerated { Enumerated.default with inner := v },
                         []⟩,
                  bundle := bundle, abandonRequestSent := false }, slots1)
        | none => none
      else
        let bundle1 :=
          if ¬is_solo then
            { bundle with solo_ops := bundle.solo_ops ++ [assignedMsgid] }
          else bundle
        some ({ result := .error .timeout, bundle := bundle1,
                abandonRequestSent := false }, slots1)
    | .failed =>
      some ({ result := .error .inner, bundle := bundle,
              abandonRequestSent := false }, slots1)
  | none =>
    match outcome with
    | .response t c =>
      some ({ result := .ok ⟨t, c⟩, bundle := bundle,
              abandonRequestSent := false }, slots1)
    | .failed =>
      some ({ result := .error .inner, bundle := bundle,
              abandonRequestSent := false }, slots1)
    | .timedOut => none

/-- Modelled from the spec: the LDAP result code a timed-out streaming
search reports in its synthesized `SearchResultDone` (§4.4 "the timeout
result code"; the spec fixes no numeric value — 85 is the conventional
client-side `timeout` code of the LDAP API). -/
def timeoutResultCode : Int := 85

/-- Modelled from the spec: the final item a streaming-search consumer
sees. -/
inductive StreamFinal where
  | done (resultCode : Int)
deriving DecidableEq, Repr

/-- Modelled from the spec: the handling, in `protocol.rs` (absent from
the sources), of a streaming search whose deadline expired — "synthesize
a `SearchResultDone` with the timeout result code, deliver it, then
retire the entry and add its MessageID to the pending-abandon set"
(§4.4 Timeout policy). -/
def handleStreamTimeout (msgid : Int) (b : ProtoBundle) :
    StreamFinal × ProtoBundle :=
  (.done timeoutResultCode,
   { b with solo_ops := b.solo_ops ++ [msgid] })

/-- C4: when the deadline expires before the response of a single
operation (neither streaming nor solo), the call fails with a `Timeout`
error, the MessageID is appended to the pending-abandon set
(`solo_ops`), nothing else of the bundle changes, and no AbandonRequest
is emitted. -/
theorem single_op_timeout (slots : LdapSlots) (bundle : ProtoBundle)
    (t : Tag) (c : Option (List RawControl)) (m : Int) (d : Duration)
    (htmo : slots.next_timeout = some d) :
    ldapCall slots bundle (.Single t c) m .timedOut =
      some ({ result := .error .timeout,
              bundle := { bundle with solo_ops := bundle.solo_ops ++ [m] },
              abandonRequestSent := false },
            { slots with next_timeout := none }) := by
  simp only [ldapCall, next_timeout, htmo]
  simp

/-- Closed witness for the C4 theorem. -/
theorem single_op_timeout_witness :
    (⟨none, none, some 1⟩ : LdapSlots).next_timeout = some 1 ∧
    ldapCall ⟨none, none, some 1⟩ ⟨[], []⟩
        (.Single (.Null 5 .Universal) none) 7 .timedOut =
      some ({ result := .error .timeout, bundle := ⟨[], [7]⟩,
              abandonRequestSent := false },
            (⟨none, none, none⟩ : LdapSlots)) :=
  ⟨rfl, single_op_timeout ⟨none, none, some 1⟩ ⟨[], []⟩
    (.Null 5 .Universal) none 7 1 rfl⟩

/-- C5: when the deadline expires on a streaming search before the
terminal response, `Ldap::call` completes without error, yielding the
sentinel `Enumerated` carrying the search's internal id; the downstream
handling (spec-modelled, `protocol.rs` being absent) synthesizes a
`SearchResultDone` with the timeout result code as the stream's final
item and adds the MessageID to the pending-abandon set. -/
theorem streaming_timeout_synthesizes_done (slots : LdapSlots)
    (bundle : ProtoBundle) (t : Tag) (c : Option (List RawControl))
    (m : Int) (d : Duration) (v : Int)
    (htmo : slots.next_timeout = some d)
    (hid : bundle.id_map.lookup m = some v) :
    ldapCall slots bundle (.Multi t c) m .timedOut =
      some ({ result :=
                .ok ⟨.Enumerated { Enumerated.default with inner := v },
                     []⟩,
              bundle := bundle, abandonRequestSent := false },
            { slots with next_timeout := none }) ∧
    handleStreamTimeout m bundle =
      (.done timeoutResultCode,
       { bundle with solo_ops := bundle.solo_ops ++ [m] }) := by
  constructor
  · simp only [ldapCall, next_timeout, htmo, hid]
    simp
  · rfl

/-- Closed witness for the C5 theorem. -/
theorem streaming_timeout_synthesizes_done_witness :
    (⟨none, none, some 1⟩ : LdapSlots).next_timeout = some 1 ∧
    ([((7 : Int), (3 : Int))].lookup 7 = some 3) ∧
    ldapCall ⟨none, none, some 1⟩ ⟨[(7, 3)], []⟩
        (.Multi (.Null 5 .Universal) none) 7 .timedOut =
      some ({ result :=
                .ok ⟨.Enumerated { Enumerated.default with inner := 3 },
                     []⟩,
              bundle := ⟨[(7, 3)], []⟩, abandonRequestSent := false },
            (⟨none, none, none⟩ : LdapSlots)) ∧
    handleStreamTimeout 7 ⟨[(7, 3)], []⟩ =
      (.done timeoutResultCode, ⟨[(7, 3)], [7]⟩) :=
  ⟨rfl, by decide,
   (streaming_timeout_synthesizes_done ⟨none, none, some 1⟩ ⟨[(7, 3)], []⟩
     (.Null 5 .Universal) none 7 1 3 rfl (by decide)).1,
   (streaming_timeout_synthesizes_done ⟨none, none, some 1⟩ ⟨[(7, 3)], []⟩
     (.Null 5 .Universal) none 7 1 3 rfl (by decide)).2⟩

/-! ## `src/src/search.rs` — constructing search entries -/

/-- UTF-8 validity of a byte sequence (the check performed by Rust's
`String::from_utf8`): ASCII bytes stand alone; multi-byte sequences have
the right continuation bytes, with overlong encodings, surrogates and
code points above U+10FFFF rejected. -/
def validUtf8 : List Nat → Bool
  | [] => true
  | b :: rest =>
    if b < 0x80 then validUtf8 rest
    else if b < 0xC2 then false
    else if b < 0xE0 then
      match rest with
      | c1 :: r =>
        if 0x80 ≤ c1 ∧ c1 < 0xC0 then validUtf8 r else false
      | [] => false
    else if b < 0xF0 then
      match rest with
      | c1 :: c2 :: r =>
        if (if b = 0xE0 then 0xA0 ≤ c1 ∧ c1 < 0xC0
            else if b = 0xED then 0x80 ≤ c1 ∧ c1 < 0xA0
            else 0x80 ≤ c1 ∧ c1 < 0xC0) ∧ 0x80 ≤ c2 ∧ c2 < 0xC0 then
          validUtf8 r
        else false
      | _ => false
    else if b < 0xF5 then
      match rest with
      | c1 :: c2 :: c3 :: r =>
        if (if b = 0xF0 then 0x90 ≤ c1 ∧ c1 < 0xC0
            else if b = 0xF4 then 0x80 ≤ c1 ∧ c1 < 0x90
            else 0x80 ≤ c1 ∧ c1 < 0xC0) ∧
           (0x80 ≤ c2 ∧ c2 < 0xC0) ∧ (0x80 ≤ c3 ∧ c3 < 0xC0) then
          validUtf8 r
        else false
      | _ => false
    else false

/-- Rust's `String::from_utf8`: in the byte model of strings, a validity
guard returning the same bytes. -/
def from_utf8 (v : List Nat) : Option RStr :=
  if validUtf8 v then some v else none

/-- The association-list model of `HashMap<String, Vec<String>>`:
`insert` replaces any existing binding of the key. -/
def hmInsert (k : RStr) (v : List RStr) (m : List (RStr × List RStr)) :
    List (RStr × List RStr) :=
  (k, v) :: m.filter (fun p => p.1 != k)

/-- `search::SearchEntry`. -/
inductive SearchEntry where
  | Reference (uris : List RStr)
  | Object (object_name : RStr) (attributes : List (RStr × List RStr))
  | Empty
deriving DecidableEq, Repr

/-- The body of the `for` loop of `search::construct_attributes`: pop
the value set, decode each value as UTF-8, pop the attribute
description, decode it, and insert the pair into the map.  Every
`unwrap` of the source is an `Option` bind. -/
def construct_attributes_step (map : List (RStr × List RStr))
    (tag : StructureTag) : Option (List (RStr × List RStr)) := do
  let inner ← tag.expect_constructed
  let values ← inner.getLast?
  let valuevRaw ← values.expect_constructed
  let valuev ← valuevRaw.mapM
    (fun t => do from_utf8 (← t.expect_primitive))
  let key ← inner.dropLast.getLast?
  let keyBytes ← key.expect_primitive
  let keystr ← from_utf8 keyBytes
  pure (hmInsert keystr valuev map)

/-- `search::construct_attributes`: fold the loop body over the
attribute PDUs, starting from the empty map. -/
def construct_attributes (tags : List StructureTag) :
    Option (List (RStr × List RStr)) :=
  tags.foldlM construct_attributes_step []

/-- `SearchEntry::construct`: tag 4 or 5 yields an object (popping the
attribute list and then the object name), tag 19 yields
`Reference(vec![])` (the source's `TODO` case), anything else panics
(`none`). -/
def SearchEntry.construct (tag : Tag) : Option SearchEntry :=
  match tag with
  | .Null _ _ => some .Empty
  | .StructureTag t =>
    if t.id = 4 ∨ t.id = 5 then do
      let tags ← t.expect_constructed
      let attributes ← tags.getLast?
      let object_name ← tags.dropLast.getLast?
      let onBytes ← object_name.expect_primitive
      let object_name ← from_utf8 onBytes
      let attrList := (attributes.expect_constructed).getD []
      let a ← construct_attributes attrList
      pure (SearchEntry.Object object_name a)
    else if t.id = 19 then
      some (.Reference [])
    else
      none
  | _ => none

/-- A well-formed `PartialAttribute` PDU: `SEQUENCE { type, SET OF
value }`, with every value an octet string. -/
def attrStruct (p : RStr × List RStr) : StructureTag :=
  .mk .Universal 16 (.C [
    .mk .Universal 4 (.P p.1),
    .mk .Universal 49 (.C (p.2.map (fun v => .mk .Universal 4 (.P v))))])

/-- A well-formed `SearchResultEntry` PDU (application tag 4): the
object name followed by the partial attribute list. -/
def mkEntryTag (dn : RStr) (attrs : List (RStr × List RStr)) : Tag :=
  .StructureTag (.mk .Application 4 (.C [
    .mk .Universal 4 (.P dn),
    .mk .Universal 16 (.C (attrs.map attrStruct))]))

/-- The map `construct_attributes` builds from the attribute pairs:
left-to-right insertion into the (overwriting) map. -/
def attrsToMap (attrs : List (RStr × List RStr)) :
    List (RStr × List RStr) :=
  attrs.foldl (fun m p => hmInsert p.1 p.2 m) []

/-- Decoding a set of valid-UTF-8 octet-string values returns exactly
those byte strings. -/
theorem mapM_values_valid (vs : List RStr)
    (h : ∀ v ∈ vs, validUtf8 v = true) :
    (vs.map (fun v => StructureTag.mk .Universal 4 (.P v))).mapM
        (fun t => do from_utf8 (← t.expect_primitive)) = some vs := by
  induction vs with
  | nil => rfl
  | cons v t ih =>
    have hv : validUtf8 v = true := h v (by simp)
    have ht := ih (fun x hx => h x (by simp [hx]))
    simp only [List.map_cons, List.mapM_cons, ht]
    simp [StructureTag.expect_primitive, StructureTag.payload, from_utf8,
      hv]

/-- One loop step of `construct_attributes` on a well-formed attribute
with valid-UTF-8 description and values. -/
theorem construct_attributes_step_valid (p : RStr × List RStr)
    (m : List (RStr × List RStr)) (hk : validUtf8 p.1 = true)
    (hv : ∀ v ∈ p.2, validUtf8 v = true) :
    construct_attributes_step m (attrStruct p) =
      some (hmInsert p.1 p.2 m) := by
  obtain ⟨k, vs⟩ := p
  have key : construct_attributes_step m (attrStruct (k, vs)) =
      ((vs.map (fun v => StructureTag.mk .Universal 4 (.P v))).mapM
          (fun (t : StructureTag) => do
            from_utf8 (← t.expect_primitive))).bind
        (fun valuev => (from_utf8 k).bind
          (fun keystr => some (hmInsert keystr valuev m))) := rfl
  rw [key, mapM_values_valid vs hv]
  simp [from_utf8, hk]

/-- Folding the loop over well-formed, valid-UTF-8 attributes builds
exactly the insertion-fold of the pairs. -/
theorem construct_attributes_valid (attrs : List (RStr × List RStr))
    (h : ∀ p ∈ attrs, validUtf8 p.1 = true ∧
      ∀ v ∈ p.2, validUtf8 v = true) :
    ∀ m, (attrs.map attrStruct).foldlM construct_attributes_step m =
      some (attrs.foldl (fun m p => hmInsert p.1 p.2 m) m) := by
  induction attrs with
  | nil => intro m; rfl
  | cons p t ih =>
    intro m
    have hp := h p (by simp)
    have ht := ih (fun x hx => h x (by simp [hx]))
    simp only [List.map_cons, List.foldlM_cons, List.foldl_cons]
    rw [construct_attributes_step_valid p m hp.1 hp.2]
    exact ht _

/-- C6 (amended): constructing a search entry from a well-formed
`SearchResultEntry` whose DN, attribute descriptions and attribute
values are all valid UTF-8 delivers every attribute value unchanged (the
map holds exactly the byte strings of the PDU); values that are not
valid UTF-8 make the construction panic instead (see the
counterexample). -/
theorem construct_entry_delivers_values (dn : RStr)
    (attrs : List (RStr × List RStr)) (hdn : validUtf8 dn = true)
    (h : ∀ p ∈ attrs, validUtf8 p.1 = true ∧
      ∀ v ∈ p.2, validUtf8 v = true) :
    SearchEntry.construct (mkEntryTag dn attrs) =
      some (.Object dn (attrsToMap attrs)) := by
  have key : SearchEntry.construct (mkEntryTag dn attrs) =
      (from_utf8 dn).bind (fun object_name =>
        (construct_attributes (attrs.map attrStruct)).bind
          (fun a => some (.Object object_name a))) := rfl
  rw [key]
  have hca : construct_attributes (attrs.map attrStruct) =
      some (attrsToMap attrs) := by
    rw [construct_attributes, construct_attributes_valid attrs h []]
    rfl
  rw [hca]
  simp [from_utf8, hdn]

/-- Closed witness for the amended C6 theorem: a two-valued attribute
whose values are plain ASCII is delivered verbatim. -/
theorem construct_entry_delivers_values_witness :
    validUtf8 (strBytes "dc=example") = true ∧
    SearchEntry.construct
        (mkEntryTag (strBytes "dc=example")
          [(strBytes "cn", [strBytes "a", strBytes "b"])]) =
      some (.Object (strBytes "dc=example")
        [(strBytes "cn", [strBytes "a", strBytes "b"])]) :=
  ⟨by decide,
   construct_entry_delivers_values (strBytes "dc=example")
     [(strBytes "cn", [strBytes "a", strBytes "b"])] (by decide)
     (by decide)⟩

/-- C6 counterexample: a well-formed `SearchResultEntry` carrying the
single attribute value `FF` (not valid UTF-8) makes `construct` panic
(`none`): the value is not delivered to the caller at all, refuting
"delivers every attribute value … for all byte-string values including
those that are not valid UTF-8". -/
theorem construct_entry_drops_non_utf8_value_cex :
    SearchEntry.construct
        (mkEntryTag (strBytes "cn=a")
          [(strBytes "jpegPhoto", [[0xFF]])]) = none := by
  decide

/-- C7: the code's handling of a `SearchResultReference` (application
tag 19) discards the URIs carried in the PDU — a reference PDU holding
one URI constructs `Reference([])`, not a referral with that URI. -/
theorem reference_uris_dropped :
    SearchEntry.construct
        (.StructureTag (.mk .Application 19
          (.C [.mk .Universal 4
            (.P (strBytes "ldap://ref.example.org/"))]))) =
      some (.Reference []) ∧
    (SearchEntry.Reference [] ≠
      SearchEntry.Reference [strBytes "ldap://ref.example.org/"]) := by
  constructor
  · decide
  · decide

/-- `search::Scope` with its discriminants
`Base = 0, OneLevel = 1, Subtree = 2`. -/
inductive Scope where
  | Base
  | OneLevel
  | Subtree
deriving DecidableEq, Repr

/-- The numeric discriminant of `Scope` (`scope as i64`). -/
def Scope.toDiscriminant : Scope → Int
  | .Base => 0
  | .OneLevel => 1
  | .Subtree => 2

/-- The numeric discriminant of `DerefAliases` (`deref as i64`). -/
def DerefAliases.toDiscriminant : DerefAliases → Int
  | .Never => 0
  | .InSearch => 1
  | .FindingBaseObject => 2
  | .Always => 3

/-- The request PDU built by `Ldap::search` in `src/search.rs`.  The
filter parser (`filter.rs`, not among the sources) is a parameter;
`parse(&filter).unwrap()` panics (`none`) when it fails. -/
def searchReqTag (parseFilter : RStr → Option Tag) (base : RStr)
    (scope : Scope) (deref : DerefAliases) (typesonly : Bool)
    (filter : RStr) (attrs : List RStr) : Option Tag :=
  match parseFilter filter with
  | none => none
  | some f =>
    some (.Sequence 3 .Application [
      .OctetString { OctetString.default with inner := base },
      .Integer { Integer.default with inner := scope.toDiscriminant },
      .Integer { Integer.default with inner := deref.toDiscriminant },
      .Integer { Integer.default with inner := 0 },
      .Integer { Integer.default with inner := 0 },
      .Boolean { Boolean.default with inner := typesonly },
      f,
      .Sequence sequenceDefaultId .Universal (attrs.map (fun s =>
        .OctetString { OctetString.default with inner := s }))])

/-- The request PDU built by `Ldap::streaming_search` in
`src/search.rs` (the source duplicates the construction verbatim). -/
def streamingSearchReqTag (parseFilter : RStr → Option Tag) (base : RStr)
    (scope : Scope) (deref : DerefAliases) (typesonly : Bool)
    (filter : RStr) (attrs : List RStr) : Option Tag :=
  match parseFilter filter with
  | none => none
  | some f =>
    some (.Sequence 3 .Application [
      .OctetString { OctetString.default with inner := base },
      .Integer { Integer.default with inner := scope.toDiscriminant },
      .Integer { Integer.default with inner := deref.toDiscriminant },
      .Integer { Integer.default with inner := 0 },
      .Integer { Integer.default with inner := 0 },
      .Boolean { Boolean.default with inner := typesonly },
      f,
      .Sequence sequenceDefaultId .Universal (attrs.map (fun s =>
        .OctetString { OctetString.default with inner := s }))])

/-- C8: both `search` and `streaming_search` build an application-class
sequence with tag number 3 whose components appear in RFC 4511 order —
base DN, scope, deref-aliases, size limit, time limit, types-only,
filter, attribute list — with the size-limit and time-limit components
encoded as integer 0. -/
theorem search_request_shape (parseFilter : RStr → Option Tag)
    (base : RStr) (scope : Scope) (deref : DerefAliases)
    (typesonly : Bool) (filter : RStr) (attrs : List RStr) (f : Tag)
    (hf : parseFilter filter = some f) :
    searchReqTag parseFilter base scope deref typesonly filter attrs =
      some (.Sequence 3 .Application [
        .OctetString ⟨4, .Universal, base⟩,
        .Integer ⟨2, .Universal, scope.toDiscriminant⟩,
        .Integer ⟨2, .Universal, deref.toDiscriminant⟩,
        .Integer ⟨2, .Universal, 0⟩,
        .Integer ⟨2, .Universal, 0⟩,
        .Boolean ⟨1, .Universal, typesonly⟩,
        f,
        .Sequence 16 .Universal (attrs.map (fun s =>
          .OctetString ⟨4, .Universal, s⟩))]) ∧
    streamingSearchReqTag parseFilter base scope deref typesonly filter
        attrs =
      searchReqTag parseFilter base scope deref typesonly filter attrs := by
  constructor
  · simp only [searchReqTag, hf]
    rfl
  · simp only [searchReqTag, streamingSearchReqTag, hf]

/-- Closed witness for the C8 theorem. -/
theorem search_request_shape_witness :
    ((fun _ => some (.Null 5 .Universal)) :
        RStr → Option Tag) (strBytes "(objectClass=*)") =
      some (.Null 5 .Universal) ∧
    searchReqTag (fun _ => some (.Null 5 .Universal))
        (strBytes "dc=example") .Subtree .Never false
        (strBytes "(objectClass=*)") [strBytes "cn"] =
      some (.Sequence 3 .Application [
        .OctetString ⟨4, .Universal, strBytes "dc=example"⟩,
        .Integer ⟨2, .Universal, Scope.Subtree.toDiscriminant⟩,
        .Integer ⟨2, .Universal, DerefAliases.Never.toDiscriminant⟩,
        .Integer ⟨2, .Universal, 0⟩,
        .Integer ⟨2, .Universal, 0⟩,
        .Boolean ⟨1, .Universal, false⟩,
        .Null 5 .Universal,
        .Sequence 16 .Universal
          [.OctetString ⟨4, .Universal, strBytes "cn"⟩]]) :=
  ⟨rfl,
   (search_request_shape (fun _ => some (.Null 5 .Universal))
     (strBytes "dc=example") .Subtree .Never false
     (strBytes "(objectClass=*)") [strBytes "cn"]
     (.Null 5 .Universal) rfl).1⟩

end Ldap3
